import Mathlib

/-
Shallow embedding of the views-py library (src/views/views.py and
src/views/exceptions.py): a read-only View over a mutable target sequence and
a WindowedView with a materialized window of indices frozen at construction.
Targets are modelled as Lean lists; a target "resizing" between operations is
modelled by running the operations against a different target list while the
window data is kept fixed.
-/

set_option autoImplicit true

universe u v

/-- Data reported by a raised WindowingIndexError. The fields mirror the
values interpolated into the exception messages in views.py: the live target
length, the windowing index that failed to resolve against it, and (for
indexed access only) the index originally requested. The message raised from
iteration carries no origin index, hence the Option. -/
structure WindowingInfo where
  targetLength : Nat
  windowingIndex : Int
  originIndex : Option Int
  deriving DecidableEq

/-- Exceptions that the embedded code can raise. indexError models the
builtin IndexError re-raised by views.py with a context length ("target has
length n" or "window has length n") and the requested index;
windowingIndexError models views.exceptions.WindowingIndexError; invalidStep
models the ValueError raised by the builtin slice machinery when a slice step
is zero (the InvalidStep failure of the specification). -/
inductive PyExc where
  | indexError (contextLength : Nat) (requestIndex : Int)
  | windowingIndexError (info : WindowingInfo)
  | invalidStep
  deriving DecidableEq

/-- Membership in the builtin LookupError class: IndexError is a builtin
subclass of LookupError, and exceptions.py declares WindowingIndexError as a
direct subclass of LookupError. ValueError is not a LookupError. -/
def PyExc.isLookupError : PyExc → Bool
  | .indexError _ _ => true
  | .windowingIndexError _ => true
  | .invalidStep => false

/-- Membership in the builtin IndexError class. -/
def PyExc.isIndexError : PyExc → Bool
  | .indexError _ _ => true
  | _ => false

/-- Membership in the WindowingIndexError class of exceptions.py. -/
def PyExc.isWindowingIndexError : PyExc → Bool
  | .windowingIndexError _ => true
  | _ => false

/-- Decidable equality of computation results, so that concrete runs of the
embedded code can be checked by decide. -/
instance {ε : Type u} {σ : Type v} [DecidableEq ε] [DecidableEq σ] : DecidableEq (Except ε σ) := fun x y =>
  match x, y with
  | .ok a, .ok b =>
    if h : a = b then .isTrue (by rw [h]) else .isFalse (fun hc => h (Except.ok.inj hc))
  | .error a, .error b =>
    if h : a = b then .isTrue (by rw [h]) else .isFalse (fun hc => h (Except.error.inj hc))
  | .ok _, .error _ => .isFalse (fun hc => Except.noConfusion hc)
  | .error _, .ok _ => .isFalse (fun hc => Except.noConfusion hc)

/-- Indexing a Python list: nonnegative indices below the length resolve
directly, negative indices of magnitude at most the length resolve from the
end, and anything else raises IndexError (modelled as none). -/
def pyGet (xs : List α) (i : Int) : Option α :=
  if 0 ≤ i then xs.get? i.toNat
  else if -(xs.length : Int) ≤ i then xs.get? (i + xs.length).toNat
  else none

/-- Number of elements of the Python object range(start, stop, step), for a
nonzero step. -/
def rangeLen (start stop step : Int) : Nat :=
  if 0 < step then ((stop - start).toNat + step.toNat - 1) / step.toNat
  else ((start - stop).toNat + (-step).toNat - 1) / (-step).toNat

/-- Elements of the Python object range(start, stop, step), in order. -/
def rangeList (start stop step : Int) : List Int :=
  (List.range (rangeLen start stop step)).map (fun k => start + k * step)

/-- A Python slice object: each bound is optional. -/
structure PySlice where
  start : Option Int
  stop : Option Int
  step : Option Int
  deriving DecidableEq

/-- Clamping applied by slice.indices to an explicit start or stop bound:
a negative value is first shifted by the length and then clamped from below
to the lower sentinel; a nonnegative value is clamped from above to the upper
sentinel. -/
def clampBound (v lower upper : Int) (L : Nat) : Int :=
  if v < 0 then max (v + (L : Int)) lower else min v upper

/-- The builtin slice.indices(length) called by View.__getitem__ at views.py
line 46, following CPython Objects/sliceobject.c: the step defaults to 1 and
must be nonzero, the direction sentinels are 0 and length for a positive step
and -1 and length - 1 for a negative one, an omitted bound defaults to the
direction-appropriate sentinel, and an explicit bound is normalized and
clamped by clampBound. The same adjustment is applied by the builtin slicing
of lists and ranges, used by WindowedView.__getitem__ on its window. -/
def sliceIndices (start stop step : Option Int) (L : Nat) : Except PyExc (Int × Int × Int) :=
  let st := step.getD 1
  if st = 0 then .error .invalidStep
  else
    let lower : Int := if st < 0 then -1 else 0
    let upper : Int := if st < 0 then (L : Int) - 1 else (L : Int)
    let sta := match start with
      | none => if st < 0 then upper else lower
      | some v => clampBound v lower upper L
    let sto := match stop with
      | none => if st < 0 then lower else upper
      | some v => clampBound v lower upper L
    .ok (sta, sto, st)

/-- Lookup used when materializing a slice of a window list: the positions
produced by sliceIndices are always within bounds, so the fallback value is
never actually returned. -/
def listIdx (xs : List Int) (i : Int) : Int :=
  (pyGet xs i).getD 0

/-- Slicing a Python list (or range) of windowing indices: resolve the slice
bounds against the list length with sliceIndices and take the selected
positions. -/
def pySliceList (xs : List Int) (s : PySlice) : Except PyExc (List Int) :=
  match sliceIndices s.start s.stop s.step xs.length with
  | .error e => .error e
  | .ok (a, b, c) => .ok ((rangeList a b c).map (listIdx xs))

/-- A WindowedView: the target it reads from and the materialized window of
windowing indices, frozen at construction (views.py line 110). -/
structure WindowedView (α : Type u) where
  target : List α
  window : List Int
  deriving DecidableEq

/-- The default window of WindowedView.__init__ when window is None:
range(len(target)) taken at construction time. -/
def defaultWindow (n : Nat) : List Int :=
  (List.range n).map Int.ofNat

/-- WindowedView constructed from a target alone, with the default window. -/
def WindowedView.ofTarget (t : List α) : WindowedView α :=
  ⟨t, defaultWindow t.length⟩

/-- WindowedView.__len__: the length of the window, not of the target. -/
def WindowedView.length (wv : WindowedView α) : Nat :=
  wv.window.length

/-- WindowedView.__getitem__ with an integer key: resolve the key against the
window (an IndexError reporting the window length when the key is out of its
range), then read the target at the resulting windowing index (a
WindowingIndexError reporting the live target length, the windowing index and
the origin key when that read fails). -/
def WindowedView.getItem (wv : WindowedView α) (k : Int) : Except PyExc α :=
  match pyGet wv.window k with
  | none => .error (.indexError wv.window.length k)
  | some subkey =>
    match pyGet wv.target subkey with
    | none => .error (.windowingIndexError ⟨wv.target.length, subkey, some k⟩)
    | some v => .ok v

/-- WindowedView.__getitem__ with a slice key: the window is sliced and a new
WindowedView over the same target is returned; no target element is read. -/
def WindowedView.getSlice (wv : WindowedView α) (s : PySlice) : Except PyExc (WindowedView α) :=
  match pySliceList wv.window s with
  | .error e => .error e
  | .ok w => .ok (WindowedView.mk wv.target w)

/-- One step of WindowedView.__iter__: reading the target at one windowing
index; a failed read raises WindowingIndexError whose message reports the
live target length and the windowing index but no origin index. -/
def targetStep (t : List α) (i : Int) : Except PyExc α :=
  match pyGet t i with
  | some v => .ok v
  | none => .error (.windowingIndexError ⟨t.length, i, none⟩)

/-- The per-element results of WindowedView.__iter__, in order, each forced
on demand. -/
def WindowedView.iterSteps (wv : WindowedView α) : List (Except PyExc α) :=
  wv.window.map (targetStep wv.target)

/-- Run an iterator to completion, propagating the first raised exception. -/
def collect : List (Except PyExc α) → Except PyExc (List α)
  | [] => .ok []
  | .error err :: _ => .error err
  | .ok x :: rest =>
    match collect rest with
    | .error err => .error err
    | .ok l => .ok (x :: l)

/-- WindowedView.__iter__ run to completion. -/
def WindowedView.elems (wv : WindowedView α) : Except PyExc (List α) :=
  collect wv.iterSteps

/-- The scan of any(map(lambda x: x is value or x == value, iterator)) in
WindowedView.__contains__: stop at the first match, propagate an exception
met before any match. The identity-or-equality comparison is abstracted as
the boolean relation e. -/
def anyScan (e : α → α → Bool) (value : α) : List (Except PyExc α) → Except PyExc Bool
  | [] => .ok false
  | .error err :: _ => .error err
  | .ok x :: rest => if e x value then .ok true else anyScan e value rest

/-- WindowedView.__contains__. -/
def WindowedView.contains (e : α → α → Bool) (wv : WindowedView α) (value : α) : Except PyExc Bool :=
  anyScan e value wv.iterSteps

/-- WindowedView.get: the same window bounds check as __getitem__, then the
target element when the windowing index is within the live target and the
default otherwise. The guard -n <= subkey < n of views.py line 182 is exactly
the domain on which pyGet returns a value, so the branch is modelled by getD
on pyGet. -/
def WindowedView.get (wv : WindowedView α) (k : Int) (d : α) : Except PyExc α :=
  match pyGet wv.window k with
  | none => .error (.indexError wv.window.length k)
  | some subkey => .ok ((pyGet wv.target subkey).getD d)

/-- WindowedView.get_each run to completion: each windowing index yields the
target element when it is within the live target and the default otherwise. -/
def WindowedView.getEach (wv : WindowedView α) (d : α) : List α :=
  wv.window.map (fun subkey => (pyGet wv.target subkey).getD d)

/-- The same WindowedView with every target element transformed; the window
is untouched. Used to state that an operation reads no target element. -/
def WindowedView.mapElems (f : α → β) (wv : WindowedView α) : WindowedView β :=
  ⟨wv.target.map f, wv.window⟩

/-- View.__len__: the live length of the target. -/
def View.length (t : List α) : Nat := t.length

/-- View.__getitem__ with an integer key: read the target, re-raising the
IndexError with the live target length and the key. -/
def View.getItem (t : List α) (k : Int) : Except PyExc α :=
  match pyGet t k with
  | some v => .ok v
  | none => .error (.indexError t.length k)

/-- View.__getitem__ with a slice key: a WindowedView over the same target
whose window is range(star key.indices(len(self))). -/
def View.getSlice (t : List α) (s : PySlice) : Except PyExc (WindowedView α) :=
  match sliceIndices s.start s.stop s.step t.length with
  | .error e => .error e
  | .ok (a, b, c) => .ok (WindowedView.mk t (rangeList a b c))

/-- The per-element results of View.__iter__: iteration of the target itself,
which never raises. -/
def View.iterSteps (t : List α) : List (Except PyExc α) :=
  t.map Except.ok

/-- View.__iter__ run to completion. -/
def View.elems (t : List α) : Except PyExc (List α) :=
  collect (View.iterSteps t)

/-- View.__contains__: the sequential membership scan of the target list,
with the identity-or-equality comparison abstracted as e. -/
def View.contains (e : α → α → Bool) (t : List α) (value : α) : Except PyExc Bool :=
  anyScan e value (View.iterSteps t)

/-- A view of either kind, for the claims that quantify over both View and
WindowedView. -/
inductive PyView (α : Type u) where
  | view (target : List α)
  | windowedView (wv : WindowedView α)
  deriving DecidableEq

/-- Dispatch of __len__. -/
def PyView.length : PyView α → Nat
  | .view t => View.length t
  | .windowedView wv => wv.length

/-- The target the view shares. -/
def PyView.targetList : PyView α → List α
  | .view t => t
  | .windowedView wv => wv.target

/-- Dispatch of __iter__. -/
def PyView.iterSteps : PyView α → List (Except PyExc α)
  | .view t => View.iterSteps t
  | .windowedView wv => wv.iterSteps

/-- Iteration of either view run to completion. -/
def PyView.elems (v : PyView α) : Except PyExc (List α) :=
  collect v.iterSteps

/-- Dispatch of __getitem__ with a slice key; both classes return a
WindowedView over the same target. -/
def PyView.getSlice : PyView α → PySlice → Except PyExc (WindowedView α)
  | .view t, s => View.getSlice t s
  | .windowedView wv, s => wv.getSlice s

/-- Dispatch of __contains__. -/
def PyView.contains (e : α → α → Bool) (v : PyView α) (value : α) : Except PyExc Bool :=
  anyScan e value v.iterSteps

/-- The same view with every target element transformed. -/
def PyView.mapElems (f : α → β) : PyView α → PyView β
  | .view t => .view (t.map f)
  | .windowedView wv => .windowedView (wv.mapElems f)

/-- The pairwise scan of all(map(lambda x, y: x is y or x == y, self, other))
in View.__eq__: stop at the first mismatch, propagate the first exception,
stop at the shorter iterator. -/
def allPairs (e : α → α → Bool) : List (Except PyExc α) → List (Except PyExc α) → Except PyExc Bool
  | [], _ => .ok true
  | _ :: _, [] => .ok true
  | .error err :: _, _ :: _ => .error err
  | .ok _ :: _, .error err :: _ => .error err
  | .ok x :: r1, .ok y :: r2 => if e x y then allPairs e r1 r2 else .ok false

/-- View.__eq__ between two views: a length comparison followed by the
element-wise scan. -/
def pyViewEq (e : α → α → Bool) (v1 v2 : PyView α) : Except PyExc Bool :=
  if v1.length = v2.length then allPairs e v1.iterSteps v2.iterSteps
  else .ok false

/-! Helper lemmas about the embedded primitives. -/

theorem pyGet_eq_none_of_length_le (t : List α) (i : Int) (h : (t.length : Int) ≤ i) :
    pyGet t i = none := by
  have h0 : 0 ≤ i := le_trans (by exact_mod_cast Nat.zero_le t.length) h
  unfold pyGet
  rw [if_pos h0]
  rw [List.get?_eq_none]
  omega

theorem defaultWindow_length (n : Nat) : (defaultWindow n).length = n := by
  simp [defaultWindow]

theorem collect_ok_length {ss : List (Except PyExc α)} {l : List α}
    (h : collect ss = .ok l) : l.length = ss.length := by
  induction ss generalizing l with
  | nil =>
    simp only [collect] at h
    cases h
    rfl
  | cons s rest ih =>
    cases s with
    | error err => simp [collect] at h
    | ok x =>
      cases hr : collect rest with
      | error err =>
        simp only [collect, hr] at h
        exact Except.noConfusion h
      | ok l2 =>
        simp only [collect, hr] at h
        cases h
        simp [ih hr]

theorem collect_map_ok (t : List α) : collect (t.map Except.ok) = .ok t := by
  induction t with
  | nil => rfl
  | cons x rest ih => simp [collect, ih]

theorem allPairs_ok (e : α → α → Bool) {s1 s2 : List (Except PyExc α)} {l1 l2 : List α}
    (h1 : collect s1 = .ok l1) (h2 : collect s2 = .ok l2) :
    allPairs e s1 s2 = .ok ((List.zipWith e l1 l2).all id) := by
  induction s1 generalizing s2 l1 l2 with
  | nil =>
    simp only [collect] at h1
    cases h1
    simp [allPairs]
  | cons s r1 ih =>
    cases s with
    | error err => simp [collect] at h1
    | ok x =>
      cases hr1 : collect r1 with
      | error err =>
        simp only [collect, hr1] at h1
        exact Except.noConfusion h1
      | ok l1t =>
        simp only [collect, hr1] at h1
        cases h1
        cases s2 with
        | nil =>
          simp only [collect] at h2
          cases h2
          simp [allPairs]
        | cons s2h r2 =>
          cases s2h with
          | error err => simp [collect] at h2
          | ok y =>
            cases hr2 : collect r2 with
            | error err =>
              simp only [collect, hr2] at h2
              exact Except.noConfusion h2
            | ok l2t =>
              simp only [collect, hr2] at h2
              cases h2
              cases hexy : e x y with
              | true => simp [allPairs, hexy, ih hr1 hr2]
              | false => simp [allPairs, hexy]

theorem anyScan_ok (e : α → α → Bool) (v : α) {ss : List (Except PyExc α)} {l : List α}
    (h : collect ss = .ok l) :
    anyScan e v ss = .ok (l.any (fun x => e x v)) := by
  induction ss generalizing l with
  | nil =>
    simp only [collect] at h
    cases h
    simp [anyScan]
  | cons s rest ih =>
    cases s with
    | error err => simp [collect] at h
    | ok x =>
      cases hr : collect rest with
      | error err =>
        simp only [collect, hr] at h
        exact Except.noConfusion h
      | ok lt =>
        simp only [collect, hr] at h
        cases h
        cases hx : e x v with
        | true => simp [anyScan, hx]
        | false => simp [anyScan, hx, ih hr]

theorem anyScan_error_mem (e : α → α → Bool) (v : α) (t : List α) {w : List Int} {err : PyExc}
    (h : anyScan e v (w.map (targetStep t)) = .error err) :
    ∃ i ∈ w, pyGet t i = none ∧ err = .windowingIndexError ⟨t.length, i, none⟩ := by
  induction w with
  | nil => simp [anyScan] at h
  | cons i rest ih =>
    cases hg : pyGet t i with
    | none =>
      simp only [List.map_cons, targetStep, hg, anyScan] at h
      cases h
      exact ⟨i, List.mem_cons_self i rest, hg, rfl⟩
    | some x =>
      simp only [List.map_cons, targetStep, hg, anyScan] at h
      cases hx : e x v with
      | true => rw [hx] at h; simp at h
      | false =>
        rw [hx] at h
        simp only [Bool.false_eq_true, if_false] at h
        obtain ⟨j, hj, hjn, hje⟩ := ih h
        exact ⟨j, List.mem_cons_of_mem i hj, hjn, hje⟩

theorem collect_error_mem (t : List α) {w : List Int} {err : PyExc}
    (h : collect (w.map (targetStep t)) = .error err) :
    ∃ i ∈ w, pyGet t i = none ∧ err = .windowingIndexError ⟨t.length, i, none⟩ := by
  induction w with
  | nil => simp [collect] at h
  | cons i rest ih =>
    cases hg : pyGet t i with
    | none =>
      simp only [List.map_cons, targetStep, hg, collect] at h
      cases h
      exact ⟨i, List.mem_cons_self i rest, hg, rfl⟩
    | some x =>
      simp only [List.map_cons, targetStep, hg, collect] at h
      cases hr : collect (rest.map (targetStep t)) with
      | error e2 =>
        rw [hr] at h
        cases h
        obtain ⟨j, hj, hjn, hje⟩ := ih hr
        exact ⟨j, List.mem_cons_of_mem i hj, hjn, hje⟩
      | ok l => rw [hr] at h; simp at h

theorem sliceIndices_error {a b c : Option Int} {L : Nat} {err : PyExc}
    (h : sliceIndices a b c L = .error err) : err = .invalidStep ∧ c.getD 1 = 0 := by
  by_cases hc : c.getD 1 = 0
  · simp only [sliceIndices] at h
    rw [if_pos hc] at h
    exact ⟨(Except.error.inj h).symm, hc⟩
  · simp only [sliceIndices] at h
    rw [if_neg hc] at h
    exact absurd h (by simp)

theorem sliceIndices_step0 (a b : Option Int) (L : Nat) :
    sliceIndices a b (some 0) L = .error .invalidStep := by
  simp [sliceIndices]

theorem pySliceList_error {w : List Int} {s : PySlice} {err : PyExc}
    (h : pySliceList w s = .error err) : err = .invalidStep ∧ s.step = some 0 := by
  unfold pySliceList at h
  cases hs : sliceIndices s.start s.stop s.step w.length with
  | error e2 =>
    rw [hs] at h
    cases h
    obtain ⟨he, hc⟩ := sliceIndices_error hs
    refine ⟨he, ?_⟩
    cases hstep : s.step with
    | none => rw [hstep] at hc; simp [Option.getD] at hc
    | some v => rw [hstep] at hc; simp [Option.getD] at hc; rw [hc]
  | ok trip => rw [hs] at h; simp at h

theorem pySliceList_step0 (w : List Int) (s : PySlice) (h : s.step = some 0) :
    pySliceList w s = .error .invalidStep := by
  unfold pySliceList
  rw [h, sliceIndices_step0]

theorem viewGetSlice_mapElems (t : List α) (f : α → β) (s : PySlice) :
    View.getSlice (t.map f) s = Except.map (WindowedView.mapElems f) (View.getSlice t s) := by
  unfold View.getSlice
  rw [List.length_map]
  cases hs : sliceIndices s.start s.stop s.step t.length with
  | error e => simp [Except.map]
  | ok trip =>
    obtain ⟨a, b, c⟩ := trip
    simp [Except.map, WindowedView.mapElems]

theorem WindowedviewGetSlice_mapElems (wv : WindowedView α) (f : α → β) (s : PySlice) :
    (wv.mapElems f).getSlice s = Except.map (WindowedView.mapElems f) (wv.getSlice s) := by
  unfold WindowedView.getSlice WindowedView.mapElems
  cases hs : pySliceList wv.window s with
  | error e => simp [hs, Except.map]
  | ok w => simp [hs, Except.map]

theorem PyviewGetSlice_mapElems (v : PyView α) (f : α → β) (s : PySlice) :
    (v.mapElems f).getSlice s = Except.map (WindowedView.mapElems f) (v.getSlice s) := by
  cases v with
  | view t => exact viewGetSlice_mapElems t f s
  | windowedView wv => exact WindowedviewGetSlice_mapElems wv f s

theorem sliceIndices_explicit_pos {a b : Int} {L : Nat} (ha0 : 0 ≤ a) (haL : a ≤ (L : Int))
    (hb0 : 0 ≤ b) (hbL : b ≤ (L : Int)) :
    sliceIndices (some a) (some b) none L = .ok (a, b, 1) := by
  simp only [sliceIndices, Option.getD, clampBound]
  norm_num
  rw [if_neg (not_lt.mpr ha0), if_neg (not_lt.mpr hb0), min_eq_left haL, min_eq_left hbL]
  exact ⟨rfl, rfl⟩

theorem pySliceList_three_tail (x y z : Int) :
    pySliceList [x, y, z] ⟨some 1, none, none⟩ = .ok [y, z] := by
  have h1 : sliceIndices (some 1) none none 3 = .ok (1, 3, 1) := by decide
  have h2 : rangeList 1 3 1 = [1, 2] := by decide
  have h3 : Int.toNat 2 = 2 := by decide
  have h4 : Int.toNat 1 = 1 := by decide
  unfold pySliceList
  norm_num [h1, h2, h3, h4, listIdx, pyGet]

theorem pyView_getSlice_target {v : PyView α} {s : PySlice} {w : WindowedView α}
    (h : v.getSlice s = .ok w) : w.target = v.targetList := by
  cases v with
  | view t =>
    unfold PyView.getSlice View.getSlice at h
    cases hs : sliceIndices s.start s.stop s.step t.length with
    | error e2 => simp only [hs] at h; exact Except.noConfusion h
    | ok trip =>
      obtain ⟨a, b, c⟩ := trip
      simp only [hs] at h
      cases h
      rfl
  | windowedView wv =>
    unfold PyView.getSlice WindowedView.getSlice at h
    cases hs : pySliceList wv.window s with
    | error e2 => simp only [hs] at h; exact Except.noConfusion h
    | ok w2 =>
      simp only [hs] at h
      cases h
      rfl

theorem pyView_length_of_elems {v : PyView α} {l : List α} (h : v.elems = .ok l) :
    v.length = l.length := by
  have hl := collect_ok_length h
  cases v with
  | view t =>
    simp only [PyView.iterSteps, View.iterSteps, List.length_map] at hl
    simpa [PyView.length, View.length] using hl.symm
  | windowedView wv =>
    simp only [PyView.iterSteps, WindowedView.iterSteps, List.length_map] at hl
    simpa [PyView.length, WindowedView.length] using hl.symm

theorem pyView_getSlice_step0 (v : PyView α) (s : PySlice) (h : s.step = some 0) :
    v.getSlice s = .error .invalidStep := by
  cases v with
  | view t =>
    show View.getSlice t s = _
    unfold View.getSlice
    rw [h, sliceIndices_step0]
  | windowedView wv =>
    show wv.getSlice s = _
    unfold WindowedView.getSlice
    rw [pySliceList_step0 _ _ h]

/-! The claims. -/

/-- Claim C1: for every WindowedView, length() equals the length of its
materialized window and never changes as the target resizes, and element
access is two-tier: for the default window materialized as 0..4 over a target
of length 5, after the target shrinks to length 2, length() still returns 5,
access at index 4 fails with a WindowingIndexError reporting that the target
has length 2, and access at index 1 still returns the target element at
index 1. -/
theorem C1_windowed_length_and_two_tier (t u : List α) (x : α)
    (h5 : t.length = 5) (h2 : u.length = 2) (hx : pyGet u 1 = some x) :
    (WindowedView.ofTarget t).length = 5
    ∧ (∀ t2 : List α, (WindowedView.mk t2 (WindowedView.ofTarget t).window).length = 5)
    ∧ (WindowedView.mk u (WindowedView.ofTarget t).window).getItem 4
        = .error (.windowingIndexError ⟨2, 4, some 4⟩)
    ∧ (WindowedView.mk u (WindowedView.ofTarget t).window).getItem 1 = .ok x := by
  have hw : (WindowedView.ofTarget t).window = [0, 1, 2, 3, 4] := by
    simp only [WindowedView.ofTarget, h5]
    rfl
  refine ⟨?_, ?_, ?_, ?_⟩
  · simp [WindowedView.length, WindowedView.ofTarget, defaultWindow_length, h5]
  · intro t2
    simp [WindowedView.length, hw]
  · have hwin : pyGet ([0, 1, 2, 3, 4] : List Int) 4 = some 4 := by decide
    have htar : pyGet u 4 = none := pyGet_eq_none_of_length_le u 4 (by omega)
    simp [WindowedView.getItem, hw, hwin, htar, h2]
  · have hwin : pyGet ([0, 1, 2, 3, 4] : List Int) 1 = some 1 := by decide
    simp [WindowedView.getItem, hw, hwin, hx]

/-- Witness for C1 at the concrete target [0, 1, 2, 3, 4] shrunk to [9, 8]. -/
theorem C1_witness :
    (WindowedView.mk ([9, 8] : List Int)
        (WindowedView.ofTarget ([0, 1, 2, 3, 4] : List Int)).window).getItem 4
      = .error (.windowingIndexError ⟨2, 4, some 4⟩) :=
  (C1_windowed_length_and_two_tier [0, 1, 2, 3, 4] [9, 8] 8 rfl rfl (by decide)).2.2.1

/-- Claim C2 counterexample: the code resolves an out-of-domain start by
clamping it directly to the domain bound, not by advancing it to the nearest
in-domain position congruent to the normalized start modulo the step. For
step 2 and target length 5, the specified start -100 normalizes to -95 and is
resolved to 0, which is not congruent to -95 modulo 2; the specified start
-101 is also resolved to 0, which is congruent neither to its normalization
-96 in the sense of the original value -101 modulo 2. So the resolved start
preserves no stride congruence with the specified start: both ends clamp
bluntly. -/
theorem C2_counterexample :
    sliceIndices (some (-100)) none (some 2) 5 = .ok (0, 5, 2)
    ∧ sliceIndices (some (-101)) none (some 2) 5 = .ok (0, 5, 2)
    ∧ ¬((0 : Int) % 2 = (-100 + 5) % 2)
    ∧ ¬((0 : Int) % 2 = (-101) % 2) := by
  refine ⟨by decide, by decide, by decide, by decide⟩

/-- Claim C2 amended: resolution of an explicitly specified start or stop
against a target length is symmetric — both are normalized by adding the
length when negative and then clamped directly into the domain
[lower, upper], with no stride-parity alignment; the concrete examples of the
claim hold as stated: step 2, length 5, start -100 resolves to 0, and for
step 1, length 5, stop 100 resolves to 5 and stop -100 resolves to 0. -/
theorem C2_amended_blunt_clamp (s u st : Int) (L : Nat) (h : st ≠ 0) :
    sliceIndices (some s) (some u) (some st) L
      = .ok (max (if st < 0 then -1 else 0)
               (min (if s < 0 then s + (L : Int) else s) (if st < 0 then (L : Int) - 1 else L)),
             max (if st < 0 then -1 else 0)
               (min (if u < 0 then u + (L : Int) else u) (if st < 0 then (L : Int) - 1 else L)),
             st)
    ∧ sliceIndices (some (-100)) none (some 2) 5 = .ok (0, 5, 2)
    ∧ sliceIndices none (some 100) (some 1) 5 = .ok (0, 5, 1)
    ∧ sliceIndices none (some (-100)) (some 1) 5 = .ok (0, 0, 1) := by
  refine ⟨?_, by decide, by decide, by decide⟩
  simp only [sliceIndices, Option.getD]
  rw [if_neg h]
  simp only [clampBound, Except.ok.injEq, Prod.mk.injEq]
  refine ⟨?_, ?_, trivial⟩
  · by_cases hst : st < 0 <;> by_cases hs : s < 0 <;> simp [hst, hs] <;> omega
  · by_cases hst : st < 0 <;> by_cases hu : u < 0 <;> simp [hst, hu] <;> omega

/-- Witness for the amended C2 at start -100, stop 100, step 2, length 5. -/
theorem C2_amended_witness :
    sliceIndices (some (-100)) (some 100) (some 2) 5 = .ok (0, 5, 2) :=
  ((C2_amended_blunt_clamp (-100) 100 2 5 (by decide)).1).trans (by decide)

/-- Claim C3 counterexample: the only constructor that accepts a window is
WindowedView, and a WindowedView built with the window range(0, 100, 1) over
a target of length 5 has length 100, not 5; slicing a View with 0:100:1
materializes the window against the live length at slicing time, and the
resulting WindowedView keeps length 5 — not 2 — when run against a target of
length 2. -/
theorem C3_counterexample :
    (WindowedView.mk ([10, 20, 30, 40, 50] : List Int) (rangeList 0 100 1)).length = 100
    ∧ ¬(100 = 5)
    ∧ (View.getSlice ([10, 20, 30, 40, 50] : List Int) ⟨some 0, some 100, some 1⟩
        = .ok (WindowedView.mk [10, 20, 30, 40, 50] [0, 1, 2, 3, 4]))
    ∧ (WindowedView.mk ([10, 20] : List Int) [0, 1, 2, 3, 4]).length = 5
    ∧ ¬((5 : Nat) = 2) := by
  refine ⟨by decide, by decide, by decide, by decide, by decide⟩

/-- Claim C3 amended: a plain View has no window and its length() equals the
live target length on every call, with no caching, so it tracks the target
through the resize sequence 5, 2, 5; a view carrying a window — a
WindowedView — has length equal to its frozen window length, unchanged by
target resizing; and a window spec such as 0:100:1 is materialized against
the live target length only when slicing a View, so slicing a length-5 target
with it yields a WindowedView of length 5 sharing the same target. -/
theorem C3_amended_live_vs_frozen (t1 t2 t3 : List α) (w : List Int)
    (h1 : t1.length = 5) (h2 : t2.length = 2) (h3 : t3.length = 5) :
    View.length t1 = 5 ∧ View.length t2 = 2 ∧ View.length t3 = 5
    ∧ (WindowedView.mk t1 w).length = w.length
    ∧ (WindowedView.mk t2 w).length = w.length
    ∧ (∃ wv : WindowedView α, View.getSlice t1 ⟨some 0, some 100, some 1⟩ = .ok wv
        ∧ wv.length = 5 ∧ wv.target = t1) := by
  refine ⟨h1, h2, h3, rfl, rfl, ?_⟩
  have hres : sliceIndices (some 0) (some 100) (some 1) 5 = .ok (0, 5, 1) := by decide
  refine ⟨WindowedView.mk t1 (rangeList 0 5 1), ?_, ?_, rfl⟩
  · unfold View.getSlice
    rw [h1, hres]
  · show (rangeList 0 5 1).length = 5
    decide

/-- Witness for the amended C3 at concrete targets of lengths 5, 2, 5. -/
theorem C3_amended_witness :
    View.length ([1, 2] : List Int) = 2
    ∧ (WindowedView.mk ([1, 2] : List Int) [0, 1, 2, 3, 4]).length
        = List.length ([0, 1, 2, 3, 4] : List Int) :=
  ⟨(C3_amended_live_vs_frozen [1, 2, 3, 4, 5] [1, 2] [6, 7, 8, 9, 10] [0, 1, 2, 3, 4]
      rfl rfl rfl).2.1,
   (C3_amended_live_vs_frozen [1, 2, 3, 4, 5] [1, 2] [6, 7, 8, 9, 10] [0, 1, 2, 3, 4]
      rfl rfl rfl).2.2.2.2.1⟩

/-- Claim C4 counterexample: a WindowingIndexError raised from iteration does
not report the original request index. Iterating the WindowedView with window
[0] over an empty target raises a WindowingIndexError whose reported data is
the live target length 0 and the windowing index 0 only — the origin field of
the message is absent — so not every raised WindowingIndexError reports the
original request index. -/
theorem C4_counterexample :
    (WindowedView.mk ([] : List Int) [0]).elems
      = .error (.windowingIndexError ⟨0, 0, none⟩)
    ∧ (WindowingInfo.mk 0 0 none).originIndex = none := by
  refine ⟨by decide, rfl⟩

/-- Claim C4 amended: WindowingIndexError is a LookupError but not an
IndexError; plain View accessors never raise it; a WindowedView indexed
access raises it exactly when the key resolves inside the window but the
resulting windowing index is outside the live target, and then it reports the
live target length, the resolved windowing index, and the original request
index; a WindowedView iteration failure also reports the live target length
and the stale windowing index, but carries no original request index. -/
theorem C4_amended_taxonomy (t : List α) (k : Int) (s : PySlice) (wv : WindowedView α)
    (i : WindowingInfo) :
    (PyExc.isLookupError (.windowingIndexError i) = true
      ∧ PyExc.isIndexError (.windowingIndexError i) = false)
    ∧ (∀ err, View.getItem t k = .error err → err.isWindowingIndexError = false)
    ∧ (∀ err, View.getSlice t s = .error err → err.isWindowingIndexError = false)
    ∧ ((∃ j, wv.getItem k = .error (.windowingIndexError j))
        ↔ ∃ sub, pyGet wv.window k = some sub ∧ pyGet wv.target sub = none)
    ∧ (∀ j, wv.getItem k = .error (.windowingIndexError j)
        → j.targetLength = wv.target.length ∧ pyGet wv.window k = some j.windowingIndex
          ∧ pyGet wv.target j.windowingIndex = none ∧ j.originIndex = some k)
    ∧ (∀ err, wv.elems = .error err
        → ∃ j, err = .windowingIndexError j ∧ j.targetLength = wv.target.length
            ∧ j.windowingIndex ∈ wv.window ∧ pyGet wv.target j.windowingIndex = none
            ∧ j.originIndex = none) := by
  refine ⟨⟨rfl, rfl⟩, ?_, ?_, ?_, ?_, ?_⟩
  · intro err herr
    unfold View.getItem at herr
    cases hg : pyGet t k with
    | some v => rw [hg] at herr; exact Except.noConfusion herr
    | none =>
      rw [hg] at herr
      cases herr
      rfl
  · intro err herr
    unfold View.getSlice at herr
    cases hs : sliceIndices s.start s.stop s.step t.length with
    | error e2 =>
      simp only [hs] at herr
      cases herr
      rw [(sliceIndices_error hs).1]
      rfl
    | ok trip =>
      obtain ⟨a, b, c⟩ := trip
      simp only [hs] at herr
      exact Except.noConfusion herr
  · constructor
    · rintro ⟨j, hj⟩
      unfold WindowedView.getItem at hj
      cases hg : pyGet wv.window k with
      | none =>
        simp only [hg] at hj
        exact absurd (Except.error.inj hj) (by simp)
      | some sub =>
        simp only [hg] at hj
        cases hg2 : pyGet wv.target sub with
        | none => exact ⟨sub, rfl, hg2⟩
        | some v =>
          simp only [hg2] at hj
          exact Except.noConfusion hj
    · rintro ⟨sub, hg, hg2⟩
      refine ⟨⟨wv.target.length, sub, some k⟩, ?_⟩
      unfold WindowedView.getItem
      simp only [hg, hg2]
  · intro j hj
    unfold WindowedView.getItem at hj
    cases hg : pyGet wv.window k with
    | none =>
      simp only [hg] at hj
      exact absurd (Except.error.inj hj) (by simp)
    | some sub =>
      simp only [hg] at hj
      cases hg2 : pyGet wv.target sub with
      | none =>
        simp only [hg2] at hj
        cases Except.error.inj hj
        exact ⟨rfl, rfl, hg2, rfl⟩
      | some v =>
        simp only [hg2] at hj
        exact Except.noConfusion hj
  · intro err herr
    unfold WindowedView.elems WindowedView.iterSteps at herr
    obtain ⟨i2, hmem, hnone, herr2⟩ := collect_error_mem wv.target herr
    exact ⟨⟨wv.target.length, i2, none⟩, herr2, rfl, hmem, hnone, rfl⟩

/-- Witness for the amended C4: indexed access on the WindowedView with
window [3] over the length-1 target [5] raises a WindowingIndexError carrying
target length 1, windowing index 3 and origin index 0. -/
theorem C4_amended_witness :
    WindowingInfo.targetLength ⟨1, 3, some 0⟩ = List.length ([5] : List Int)
    ∧ pyGet ([3] : List Int) 0 = some (WindowingInfo.windowingIndex ⟨1, 3, some 0⟩)
    ∧ pyGet ([5] : List Int) (WindowingInfo.windowingIndex ⟨1, 3, some 0⟩) = none
    ∧ WindowingInfo.originIndex ⟨1, 3, some 0⟩ = some 0 :=
  (C4_amended_taxonomy ([5] : List Int) 0 ⟨none, none, none⟩
    (WindowedView.mk [5] [3]) ⟨1, 3, some 0⟩).2.2.2.2.1 ⟨1, 3, some 0⟩ (by decide)

/-- Claim C5: the safe accessors get and get_each never raise
WindowingIndexError: get still fails with the IndexError reporting the window
length when the requested index is outside the window, but whenever the
window resolves the index to a windowing index outside the live target both
accessors produce the provided default instead of failing, evaluated against
the live target on each call. -/
theorem C5_safe_accessors (wv : WindowedView α) (k : Int) (d : α) :
    (∀ err, wv.get k d = .error err
        → err = .indexError wv.window.length k ∧ pyGet wv.window k = none)
    ∧ (∀ err, wv.get k d = .error err → err.isWindowingIndexError = false)
    ∧ (∀ sub, pyGet wv.window k = some sub → pyGet wv.target sub = none
        → wv.get k d = .ok d)
    ∧ (∀ sub v, pyGet wv.window k = some sub → pyGet wv.target sub = some v
        → wv.get k d = .ok v)
    ∧ (wv.getEach d).length = wv.window.length
    ∧ (∀ j : Nat, ∀ hj : j < wv.window.length,
        (wv.getEach d).get? j = some ((pyGet wv.target (wv.window.get ⟨j, hj⟩)).getD d)) := by
  refine ⟨?_, ?_, ?_, ?_, by simp [WindowedView.getEach], ?_⟩
  · intro err herr
    unfold WindowedView.get at herr
    cases hg : pyGet wv.window k with
    | none =>
      simp only [hg] at herr
      cases herr
      exact ⟨rfl, rfl⟩
    | some sub =>
      simp only [hg] at herr
      exact Except.noConfusion herr
  · intro err herr
    unfold WindowedView.get at herr
    cases hg : pyGet wv.window k with
    | none =>
      simp only [hg] at herr
      cases herr
      rfl
    | some sub =>
      simp only [hg] at herr
      exact Except.noConfusion herr
  · intro sub hg hg2
    unfold WindowedView.get
    simp only [hg, hg2, Option.getD]
  · intro sub v hg hg2
    unfold WindowedView.get
    simp only [hg, hg2, Option.getD]
  · intro j hj
    unfold WindowedView.getEach
    rw [List.get?_map, List.get?_eq_get hj]
    rfl

/-- Witness for C5: on the WindowedView with window [0, 5] over the length-1
target [7], the safe accessor at window index 1 resolves the stale windowing
index 5 and returns the default 99 instead of raising. -/
theorem C5_witness : (WindowedView.mk ([7] : List Int) [0, 5]).get 1 99 = .ok 99 :=
  (C5_safe_accessors (WindowedView.mk [7] [0, 5]) 1 99).2.2.1 5 (by decide) (by decide)

/-- Claim C6: equality between any two views (View or WindowedView, over the
same or different targets) is structural on the currently resolved element
sequences: the comparison returns true exactly when the two sequences have
equal length and are element-wise related by the identity-or-equality test,
independent of target identity and window configuration. In particular two
Views over different targets with equal contents compare equal, and a View
and a WindowedView with identical visible sequences compare equal. -/
theorem C6_structural_equality (e : α → α → Bool) (v1 v2 : PyView α) (l1 l2 : List α)
    (h1 : v1.elems = .ok l1) (h2 : v2.elems = .ok l2) :
    pyViewEq e v1 v2
      = .ok (decide (l1.length = l2.length) && (List.zipWith e l1 l2).all id) := by
  unfold pyViewEq
  have e1 := pyView_length_of_elems h1
  have e2 := pyView_length_of_elems h2
  by_cases hlen : v1.length = v2.length
  · rw [if_pos hlen, allPairs_ok e h1 h2]
    have hll : l1.length = l2.length := by omega
    simp [hll]
  · rw [if_neg hlen]
    have hll : ¬(l1.length = l2.length) := by omega
    simp [hll]

/-- Witness for C6: the View over [1, 2] and the WindowedView over target
[5, 1, 2] with window [1, 2] resolve to the same visible sequence [1, 2], so
they compare equal. -/
theorem C6_witness :
    pyViewEq (fun a b => a == b) (.view ([1, 2] : List Int))
        (.windowedView ⟨[5, 1, 2], [1, 2]⟩) = .ok true :=
  (C6_structural_equality (fun a b => a == b) (.view [1, 2])
    (.windowedView ⟨[5, 1, 2], [1, 2]⟩) [1, 2] [1, 2] (by decide) (by decide)).trans
    (by decide)

/-- Claim C7: slicing composes relative to the currently visible range and
performs no element access: over a view of length at least 5, taking the
slice 2:5 and then 1: produces the very same view as the slice 3:5 — hence
the same element sequence — each slice shares the target of the original
view, and slicing commutes with any transformation of the target elements,
so no element is read. -/
theorem C7_slice_composition (v : PyView α) (f : α → β) (h : 5 ≤ v.length) :
    ((v.getSlice ⟨some 2, some 5, none⟩).bind (fun a => a.getSlice ⟨some 1, none, none⟩))
      = v.getSlice ⟨some 3, some 5, none⟩
    ∧ (∀ w1, v.getSlice ⟨some 2, some 5, none⟩ = .ok w1 → w1.target = v.targetList)
    ∧ (∀ w2, v.getSlice ⟨some 3, some 5, none⟩ = .ok w2 → w2.target = v.targetList)
    ∧ (∀ w1 w2,
        (v.getSlice ⟨some 2, some 5, none⟩).bind (fun a => a.getSlice ⟨some 1, none, none⟩)
            = .ok w1
        → v.getSlice ⟨some 3, some 5, none⟩ = .ok w2 → w1.elems = w2.elems)
    ∧ (∀ s : PySlice, (v.mapElems f).getSlice s
        = Except.map (WindowedView.mapElems f) (v.getSlice s)) := by
  have hr234 : rangeList 2 5 1 = [2, 3, 4] := by decide
  have hr34 : rangeList 3 5 1 = [3, 4] := by decide
  have hmain : ((v.getSlice ⟨some 2, some 5, none⟩).bind
        (fun a => a.getSlice ⟨some 1, none, none⟩))
      = v.getSlice ⟨some 3, some 5, none⟩ := by
    cases v with
    | view t =>
      have hlen : 5 ≤ t.length := by simpa [PyView.length, View.length] using h
      have h25 : sliceIndices (some 2) (some 5) none t.length = .ok (2, 5, 1) :=
        sliceIndices_explicit_pos (by norm_num) (by omega) (by norm_num) (by omega)
      have h35 : sliceIndices (some 3) (some 5) none t.length = .ok (3, 5, 1) :=
        sliceIndices_explicit_pos (by norm_num) (by omega) (by norm_num) (by omega)
      have hps : pySliceList [2, 3, 4] ⟨some 1, none, none⟩ = .ok [3, 4] := by decide
      show ((View.getSlice t ⟨some 2, some 5, none⟩).bind
          (fun a => a.getSlice ⟨some 1, none, none⟩)) = View.getSlice t ⟨some 3, some 5, none⟩
      unfold View.getSlice
      simp only [h25, h35, hr234, hr34, Except.bind, WindowedView.getSlice, hps]
    | windowedView wv =>
      have hlen : 5 ≤ wv.window.length := by
        simpa [PyView.length, WindowedView.length] using h
      have h25 : sliceIndices (some 2) (some 5) none wv.window.length = .ok (2, 5, 1) :=
        sliceIndices_explicit_pos (by norm_num) (by omega) (by norm_num) (by omega)
      have h35 : sliceIndices (some 3) (some 5) none wv.window.length = .ok (3, 5, 1) :=
        sliceIndices_explicit_pos (by norm_num) (by omega) (by norm_num) (by omega)
      have hw25 : pySliceList wv.window ⟨some 2, some 5, none⟩
          = .ok [listIdx wv.window 2, listIdx wv.window 3, listIdx wv.window 4] := by
        unfold pySliceList
        simp only [h25, hr234, List.map_cons, List.map_nil]
      have hw35 : pySliceList wv.window ⟨some 3, some 5, none⟩
          = .ok [listIdx wv.window 3, listIdx wv.window 4] := by
        unfold pySliceList
        simp only [h35, hr34, List.map_cons, List.map_nil]
      have hmid := pySliceList_three_tail (listIdx wv.window 2) (listIdx wv.window 3)
        (listIdx wv.window 4)
      show ((wv.getSlice ⟨some 2, some 5, none⟩).bind
          (fun a => a.getSlice ⟨some 1, none, none⟩)) = wv.getSlice ⟨some 3, some 5, none⟩
      unfold WindowedView.getSlice
      simp only [hw25, hw35, Except.bind, hmid]
  refine ⟨hmain, ?_, ?_, ?_, fun s => PyviewGetSlice_mapElems v f s⟩
  · intro w1 hw1
    exact pyView_getSlice_target hw1
  · intro w2 hw2
    exact pyView_getSlice_target hw2
  · intro w1 w2 hw1 hw2
    rw [hmain] at hw1
    rw [hw1] at hw2
    cases hw2
    rfl

/-- Witness for C7 at the concrete View over [10, 20, 30, 40, 50]. -/
theorem C7_witness :
    ((PyView.view ([10, 20, 30, 40, 50] : List Int)).getSlice ⟨some 2, some 5, none⟩).bind
        (fun a => a.getSlice ⟨some 1, none, none⟩)
      = (PyView.view ([10, 20, 30, 40, 50] : List Int)).getSlice ⟨some 3, some 5, none⟩ :=
  (C7_slice_composition (PyView.view [10, 20, 30, 40, 50]) (fun n => n) (by decide)).1

/-- Claim C8: for every view of either kind and every slice whose step is
zero, resolution fails with the invalid-step error at resolution time, and no
element is accessed: the same failure is produced after any transformation of
the target elements. -/
theorem C8_zero_step (v : PyView α) (f : α → β) (s : PySlice) (h : s.step = some 0) :
    v.getSlice s = .error .invalidStep
    ∧ (v.mapElems f).getSlice s = .error .invalidStep :=
  ⟨pyView_getSlice_step0 v s h, pyView_getSlice_step0 (v.mapElems f) s h⟩

/-- Witness for C8 at the View over [1] and the slice with step 0. -/
theorem C8_witness :
    (PyView.view ([1] : List Int)).getSlice ⟨none, none, some 0⟩ = .error .invalidStep :=
  (C8_zero_step (PyView.view [1]) (fun n => n) ⟨none, none, some 0⟩ rfl).1

/-- Claim C9 counterexample: the containment test on a WindowedView whose
window contains an entry outside the live target does not always return a
boolean: testing membership of 0 in the WindowedView with window [0] over an
empty target propagates the WindowingIndexError raised by the underlying
iteration instead of returning a boolean. -/
theorem C9_counterexample :
    (PyView.windowedView (WindowedView.mk ([] : List Int) [0])).contains
        (fun a b => a == b) 0
      = .error (.windowingIndexError ⟨0, 0, none⟩) := by decide

/-- Claim C9 amended: the containment test is a sequential scan with the
identity-or-equality comparison; on a plain View it always returns a boolean
and never raises; on a WindowedView it returns a boolean whenever every
window entry resolves against the live target, it stops at the first match,
and the only failures it can produce are the WindowingIndexError of a window
entry outside the live target reached before any match. -/
theorem C9_amended_containment (e : α → α → Bool) (t : List α) (wv : WindowedView α)
    (value : α) (l : List α) :
    (PyView.view t).contains e value = .ok (t.any (fun x => e x value))
    ∧ ((PyView.windowedView wv).elems = .ok l
        → (PyView.windowedView wv).contains e value = .ok (l.any (fun x => e x value)))
    ∧ (∀ err, (PyView.windowedView wv).contains e value = .error err
        → ∃ i ∈ wv.window, pyGet wv.target i = none
            ∧ err = .windowingIndexError ⟨wv.target.length, i, none⟩) := by
  refine ⟨?_, ?_, ?_⟩
  · exact anyScan_ok e value (collect_map_ok t)
  · intro hl
    exact anyScan_ok e value hl
  · intro err herr
    exact anyScan_error_mem e value wv.target herr

/-- Witness for the amended C9: on the WindowedView with window [1, 0] over
[4, 5], whose entries all resolve, containment of 5 returns the boolean scan
of the resolved sequence [5, 4]. -/
theorem C9_amended_witness :
    (PyView.windowedView (WindowedView.mk ([4, 5] : List Int) [1, 0])).contains
        (fun a b => a == b) 5
      = .ok (([5, 4] : List Int).any (fun x => (fun a b => a == b) x 5)) :=
  (C9_amended_containment (fun a b => a == b) ([] : List Int)
    (WindowedView.mk [4, 5] [1, 0]) 5 [5, 4]).2.1 (by decide)

/-- Claim C10: slicing a WindowedView resolves the slice against the window
only: on success the result is a new WindowedView sharing the same target
whose window is the resolved sub-sequence of the window; the only possible
failure is the invalid-step error, never a WindowingIndexError, even when
every window entry lies outside the live target; no target element is read —
slicing commutes with any transformation of the target elements, and the
resolved window does not depend on the target at all. -/
theorem C10_windowed_getitem_slice (wv : WindowedView α) (s : PySlice) (f : α → β)
    (t2 : List α) :
    (∀ w2, wv.getSlice s = .ok w2 → w2.target = wv.target ∧ pySliceList wv.window s = .ok w2.window)
    ∧ (∀ err, wv.getSlice s = .error err → err = .invalidStep)
    ∧ (wv.mapElems f).getSlice s = Except.map (WindowedView.mapElems f) (wv.getSlice s)
    ∧ Except.map WindowedView.window ((WindowedView.mk t2 wv.window).getSlice s)
        = Except.map WindowedView.window (wv.getSlice s) := by
  refine ⟨?_, ?_, WindowedviewGetSlice_mapElems wv f s, ?_⟩
  · intro w2 hw
    unfold WindowedView.getSlice at hw
    cases hs : pySliceList wv.window s with
    | error e2 =>
      simp only [hs] at hw
      exact Except.noConfusion hw
    | ok w3 =>
      simp only [hs] at hw
      cases hw
      exact ⟨rfl, rfl⟩
  · intro err herr
    unfold WindowedView.getSlice at herr
    cases hs : pySliceList wv.window s with
    | error e2 =>
      simp only [hs] at herr
      cases herr
      exact (pySliceList_error hs).1
    | ok w3 =>
      simp only [hs] at herr
      exact Except.noConfusion herr
  · show Except.map WindowedView.window ((WindowedView.mk t2 wv.window).getSlice s)
        = Except.map WindowedView.window (wv.getSlice s)
    unfold WindowedView.getSlice
    cases hs : pySliceList wv.window s with
    | error e2 => rfl
    | ok w3 => rfl

/-- Witness for C10: slicing the WindowedView with window [0, 1] over
[10, 20] by 1: yields the WindowedView over the same target with window [1]. -/
theorem C10_witness :
    WindowedView.target (WindowedView.mk ([10, 20] : List Int) [1])
        = WindowedView.target (WindowedView.mk ([10, 20] : List Int) [0, 1])
    ∧ pySliceList [0, 1] ⟨some 1, none, none⟩
        = .ok (WindowedView.window (WindowedView.mk ([10, 20] : List Int) [1])) :=
  (C10_windowed_getitem_slice (WindowedView.mk [10, 20] [0, 1]) ⟨some 1, none, none⟩
    (fun n => n) ([] : List Int)).1 (WindowedView.mk [10, 20] [1]) (by decide)
